import Mathlib

/-!
Verification of the core request-processing pipeline of a moderation-and-memory
layer in front of an LLM completion API.  The embedding below follows the
Python source: `src/core/guardrails.py`, `src/core/history.py`,
`src/core/prompts.py` and `src/services/llm_client.py`.  Python strings are
modelled as Lean `String` (sequences of code points), machine time as `Nat`,
and the HTTP transport as an explicit oracle from attempt numbers to outcomes.
-/

namespace Guardrails

/-- The character denylist of `GuardRails.sanitize_input`
(regex `[<>{}[\]$` backtick `\\]`): angle/curly/square brackets, dollar,
backtick, backslash, given here by code point. -/
def denyChars : List Char := [60, 62, 123, 125, 91, 93, 36, 96, 92].map Char.ofNat

/-- `GuardRails.sanitize_input`: remove the denylisted characters, then
truncate to the first 2000 code points (`text[:2000]`). -/
def sanitize_input (text : String) : String :=
  String.mk ((text.data.filter (fun c => ¬ c ∈ denyChars)).take 2000)

end Guardrails

namespace Guardrails

theorem sanitize_data (text : String) :
    (sanitize_input text).data = (text.data.filter (fun c => ¬ c ∈ denyChars)).take 2000 := rfl

theorem sanitize_no_deny (text : String) :
    ∀ c ∈ (sanitize_input text).data, ¬ c ∈ denyChars := by
  intro c hc
  rw [sanitize_data] at hc
  have hmem := List.mem_of_mem_take hc
  simpa using (List.mem_filter.mp hmem).2

theorem sanitize_length (text : String) : (sanitize_input text).data.length ≤ 2000 := by
  rw [sanitize_data]
  exact List.length_take_le _ _

theorem sanitize_idem (text : String) :
    sanitize_input (sanitize_input text) = sanitize_input text := by
  apply congrArg String.mk
  rw [sanitize_data]
  have hfilter : ((text.data.filter (fun c => ¬ c ∈ denyChars)).take 2000).filter
      (fun c => ¬ c ∈ denyChars) = (text.data.filter (fun c => ¬ c ∈ denyChars)).take 2000 := by
    apply List.filter_eq_self.mpr
    intro c hc
    have hmem := List.mem_of_mem_take hc
    exact (List.mem_filter.mp hmem).2
  rw [hfilter, List.take_take]
  simp

end Guardrails

namespace Guardrails

/-- The keyword list of `GuardRails.__init__` (`self.culture_keywords`). -/
def culture_keywords : List String :=
  ["culture", "cultural", "art", "arts", "music", "literature", "tradition",
   "heritage", "festival", "custom", "society", "language", "dance",
   "ritual", "belief", "museum", "history", "film", "painting",
   "architecture", "sculpture", "folklore", "mythology", "religion",
   "philosophy", "anthropology", "archaeology", "ethnic", "national identity"]

/-- Python substring test `pat in hay` (`str.__contains__`): the pattern is a
prefix of some suffix of the haystack. -/
def strContainsAux (pat : List Char) : List Char → Bool
  | [] => pat.isPrefixOf []
  | c :: t => pat.isPrefixOf (c :: t) || strContainsAux pat t

/-- Python substring test `pat in hay`. -/
def strContains (hay pat : String) : Bool := strContainsAux pat.data hay.data

/-- A regex `.`-segment: any characters except a newline. -/
def noNewline (cs : List Char) : Bool := cs.all (fun c => c ≠ Char.ofNat 10)

/-- `re.search` of a pattern `(a1|...|an).*(b1|...|bm)` on `t`: some
alternative of the first group occurs at position `i`, some alternative of
the second group occurs at a position `k` past its end, and the gap crossed
by `.*` contains no newline. -/
def seqSearch (as bs : List String) (t : String) : Bool :=
  let s := t.data
  (List.range (s.length + 1)).any fun i =>
    as.any fun a =>
      a.data.isPrefixOf (s.drop i) &&
      ((List.range (s.length + 1)).any fun k =>
        decide (i + a.data.length ≤ k) &&
        noNewline ((s.drop (i + a.data.length)).take (k - (i + a.data.length))) &&
        bs.any fun b => b.data.isPrefixOf (s.drop k))

/-- `re.search` of an anchored pattern `^(a1|...).*(b1|...)` on `t`: as
`seqSearch` but the first group must match at position 0. -/
def anchoredSeqSearch (as bs : List String) (t : String) : Bool :=
  let s := t.data
  as.any fun a =>
    a.data.isPrefixOf s &&
    ((List.range (s.length + 1)).any fun k =>
      decide (a.data.length ≤ k) &&
      noNewline ((s.drop a.data.length).take (k - a.data.length)) &&
      bs.any fun b => b.data.isPrefixOf (s.drop k))

/-- `re.search` of a pattern `(a1|...) SEP (b1|...)` with a literal separator:
some concatenation `a ++ sep ++ b` occurs as a substring. -/
def literalPairSearch (as : List String) (sep : String) (bs : List String) (t : String) : Bool :=
  as.any fun a => bs.any fun b => strContains t (a ++ sep ++ b)

/-- The five compiled patterns of `self.culture_patterns`, in source order. -/
def culture_patterns_match (t : String) : Bool :=
  seqSearch ["cultural", "artistic", "historical", "traditional"]
    ["practice", "aspect", "significance", "context"] t ||
  literalPairSearch ["work", "piece"] " of " ["art", "literature", "music"] t ||
  literalPairSearch ["historical", "cultural"] " " ["event", "period", "figure", "monument"] t ||
  literalPairSearch ["traditional", "folk"] " " ["dance", "music", "costume", "craft"] t ||
  anchoredSeqSearch ["how", "what", "when", "where", "why"]
    ["culture", "art", "history", "tradition"] t

/-- One character of Python `str.lower()`, on the ASCII range (the inputs of
interest are ASCII; `A`-`Z` map to `a`-`z`, all else is unchanged). -/
def lowerChar (c : Char) : Char :=
  if 65 ≤ c.toNat ∧ c.toNat ≤ 90 then Char.ofNat (c.toNat + 32) else c

/-- Python `text.lower()` on ASCII text. -/
def pyLower (s : String) : String := String.mk (s.data.map lowerChar)

/-- The fixed rejection message built in `GuardRails.is_cultural_topic`. -/
def culture_error_msg : String :=
  "This assistant only answers culture-related questions. " ++
  "Please rephrase your question to focus on arts, traditions, heritage, " ++
  "history, or any other cultural topics."

/-- `GuardRails.is_cultural_topic`: lower-case the text, accept if any keyword
is a substring, else accept if any pattern matches, else reject with the fixed
message. -/
def is_cultural_topic (text : String) : Bool × Option String :=
  let text_lower := pyLower text
  if culture_keywords.any (fun k => strContains text_lower k) then (true, none)
  else if culture_patterns_match text_lower then (true, none)
  else (false, some culture_error_msg)

/-- Accumulator-passing model of Python `str.split()` (split on whitespace
runs, dropping empty pieces), over the code-point list. -/
def splitWS : List Char → List Char → List (List Char)
  | [], acc => if acc = [] then [] else [acc.reverse]
  | c :: cs, acc =>
    if c.isWhitespace then
      if acc = [] then splitWS cs []
      else acc.reverse :: splitWS cs []
    else splitWS cs (c :: acc)

/-- Python `text.split()`: the whitespace-separated words of `text`. -/
def pyWords (s : String) : List String := (splitWS s.data []).map String.mk

/-- Python `sep.join(ws)`: the words joined with the separator between
consecutive elements. -/
def pyJoin (sep : String) : List String → String
  | [] => ""
  | [w] => w
  | w :: ws => w ++ sep ++ pyJoin sep ws

/-- Python `str.rfind(c)`: index of the last occurrence, or -1. -/
def pyRfind (s : String) (c : Char) : Int :=
  match s.data.reverse.findIdx? (· = c) with
  | some i => (s.data.length : Int) - 1 - (i : Int)
  | none => -1

/-- `GuardRails.enforce_output_length`: if the word count exceeds
`max_words`, keep the first `max_words` words, then cut back to the last
sentence-ending punctuation (`.`, `?`, `!`) at a positive index when one
exists, and append the truncation marker. -/
def enforce_output_length (text : String) (max_words : Nat) : String :=
  let words := pyWords text
  if words.length > max_words then
    let truncated := pyJoin " " (words.take max_words)
    let last_period := pyRfind truncated '.'
    let last_question := pyRfind truncated '?'
    let last_exclamation := pyRfind truncated '!'
    let end_pos := max last_period (max last_question last_exclamation)
    if end_pos > 0 then
      String.mk (truncated.data.take (end_pos.toNat + 1)) ++
        " [Response truncated due to length]"
    else
      truncated ++ "... [Response truncated due to length]"
  else text

end Guardrails

namespace Guardrails

theorem pyWords_length (s : String) : (pyWords s).length = (splitWS s.data []).length := by
  simp [pyWords]

theorem splitWS_len_acc (cs : List Char) :
    ∀ a b : List Char, a ≠ [] → b ≠ [] → (splitWS cs a).length = (splitWS cs b).length := by
  induction cs with
  | nil => intro a b ha hb; simp [splitWS, ha, hb]
  | cons c cs ih =>
    intro a b ha hb
    by_cases hws : c.isWhitespace = true
    · simp [splitWS, hws, ha, hb]
    · simp only [splitWS, hws, if_false]
      exact ih (c :: a) (c :: b) (by simp) (by simp)

theorem splitWS_len_pos (l : List Char) : ∀ acc : List Char, acc ≠ [] →
    1 ≤ (splitWS l acc).length := by
  induction l with
  | nil => intro acc h; simp [splitWS, h]
  | cons c cs ih =>
    intro acc h
    by_cases hws : c.isWhitespace = true
    · simp [splitWS, hws, h]
    · simp only [splitWS, hws, if_false]
      exact ih (c :: acc) (by simp)

theorem splitWS_len_le (ys : List Char) :
    ∀ acc : List Char,
      (splitWS ys acc).length ≤ (if acc = [] then 0 else 1) + (splitWS ys []).length := by
  induction ys with
  | nil => intro acc; by_cases h : acc = [] <;> simp [splitWS, h]
  | cons c cs ih =>
    intro acc
    by_cases hws : c.isWhitespace = true
    · by_cases h : acc = []
      · simp [splitWS, hws, h]
      · simp [splitWS, hws, h]
        omega
    · by_cases h : acc = []
      · subst h; simp only [splitWS, hws, if_false, if_pos rfl]
        omega
      · simp [splitWS, hws, h]
        have h1 := splitWS_len_acc cs (c :: acc) [c] (by simp) (by simp)
        omega

theorem splitWS_append_le (ys : List Char) : ∀ (xs acc : List Char),
    (splitWS (xs ++ ys) acc).length ≤ (splitWS xs acc).length + (splitWS ys []).length := by
  intro xs
  induction xs with
  | nil =>
    intro acc
    have h := splitWS_len_le ys acc
    by_cases hacc : acc = []
    · simp [splitWS, hacc] at h ⊢
    · simp [splitWS, hacc] at h ⊢
      omega
  | cons x xs ih =>
    intro acc
    by_cases hws : x.isWhitespace = true
    · by_cases hacc : acc = []
      · simpa [splitWS, hws, hacc] using ih []
      · have h0 := ih []
        simp only [List.cons_append, splitWS, hws, if_true, if_neg hacc, List.length_cons,
          List.append_eq]
        omega
    · simp only [List.cons_append, splitWS, hws, if_false]
      exact ih (x :: acc)

theorem splitWS_take_le (xs : List Char) : ∀ (k : Nat) (acc : List Char),
    (splitWS (xs.take k) acc).length ≤ (splitWS xs acc).length := by
  induction xs with
  | nil => intro k acc; simp
  | cons x xs ih =>
    intro k acc
    cases k with
    | zero =>
      rw [List.take_zero]
      by_cases hacc : acc = []
      · simp [splitWS, hacc]
      · have h1 : (splitWS ([] : List Char) acc).length = 1 := by simp [splitWS, hacc]
        rw [h1]
        exact splitWS_len_pos (x :: xs) acc hacc
    | succ k =>
      rw [List.take_succ_cons]
      by_cases hws : x.isWhitespace = true
      · by_cases hacc : acc = []
        · simpa [splitWS, hws, hacc] using ih k []
        · have := ih k []
          simp only [splitWS, hws, if_true, if_neg hacc, List.length_cons]
          omega
      · simp only [splitWS, hws, if_false]
        exact ih k (x :: acc)

theorem splitWS_nows_le_one (xs : List Char) : ∀ acc : List Char,
    (∀ c ∈ xs, c.isWhitespace = false) → (splitWS xs acc).length ≤ 1 := by
  induction xs with
  | nil => intro acc h; by_cases hacc : acc = [] <;> simp [splitWS, hacc]
  | cons x xs ih =>
    intro acc h
    have hx : x.isWhitespace = false := h x (by simp)
    simp only [splitWS, hx, Bool.false_eq_true, if_false]
    exact ih (x :: acc) (fun c hc => h c (by simp [hc]))

theorem splitWS_words_nows (xs : List Char) : ∀ acc : List Char,
    (∀ c ∈ acc, c.isWhitespace = false) →
    ∀ w ∈ splitWS xs acc, ∀ c ∈ w, c.isWhitespace = false := by
  induction xs with
  | nil =>
    intro acc hacc w hw c hc
    by_cases h : acc = []
    · simp [splitWS, h] at hw
    · simp only [splitWS, if_neg h, List.mem_singleton] at hw
      subst hw
      exact hacc c (by simpa using hc)
  | cons x xs ih =>
    intro acc hacc w hw c hc
    by_cases hws : x.isWhitespace = true
    · by_cases h : acc = []
      · simp only [splitWS, hws, if_true, h, if_pos rfl] at hw
        exact ih [] (by simp) w hw c hc
      · simp only [splitWS, hws, if_true, if_neg h, List.mem_cons] at hw
        rcases hw with hw | hw
        · subst hw
          exact hacc c (by simpa using hc)
        · exact ih [] (by simp) w hw c hc
    · simp only [splitWS, hws, if_false] at hw
      refine ih (x :: acc) ?_ w hw c hc
      intro d hd
      rcases List.mem_cons.mp hd with h1 | h2
      · subst h1; simpa using hws
      · exact hacc d h2

theorem splitWS_cons_space (rest : List Char) : splitWS (' ' :: rest) [] = splitWS rest [] := rfl

theorem splitWS_join_le : ∀ ws : List String,
    (∀ w ∈ ws, ∀ c ∈ w.data, c.isWhitespace = false) →
    (splitWS (pyJoin " " ws).data []).length ≤ ws.length := by
  intro ws
  induction ws with
  | nil => intro _; simp [pyJoin, splitWS]
  | cons w ws ih =>
    intro h
    cases ws with
    | nil =>
      simpa [pyJoin] using splitWS_nows_le_one w.data [] (fun c hc => h w (by simp) c hc)
    | cons w2 ws2 =>
      have hdata : (pyJoin " " (w :: w2 :: ws2)).data
          = w.data ++ (' ' :: (pyJoin " " (w2 :: ws2)).data) := by
        show (w ++ " " ++ pyJoin " " (w2 :: ws2)).data = _
        rw [String.data_append, String.data_append, List.append_assoc]
        rfl
      rw [hdata]
      have h1 := splitWS_nows_le_one w.data [] (fun c hc => h w (by simp) c hc)
      have h2 : (splitWS (pyJoin " " (w2 :: ws2)).data []).length ≤ ws2.length + 1 := by
        simpa using ih (fun u hu c hc => h u (by simp [hu]) c hc)
      have h3 := splitWS_append_le (' ' :: (pyJoin " " (w2 :: ws2)).data) w.data []
      rw [splitWS_cons_space] at h3
      simp only [List.length_cons]
      omega

theorem pyWords_nows (s : String) : ∀ w ∈ pyWords s, ∀ c ∈ w.data, c.isWhitespace = false := by
  intro w hw c hc
  rcases List.mem_map.mp hw with ⟨l, hl, rfl⟩
  exact splitWS_words_nows s.data [] (by simp) l hl c hc

end Guardrails

namespace Guardrails

theorem data_mk (l : List Char) : (String.mk l).data = l := rfl

theorem truncated_words_le (text : String) (max_words : Nat) :
    (splitWS (pyJoin " " ((pyWords text).take max_words)).data []).length ≤ max_words := by
  have h1 := splitWS_join_le ((pyWords text).take max_words)
    (fun w hw c hc => pyWords_nows text w (List.mem_of_mem_take hw) c hc)
  have h2 : ((pyWords text).take max_words).length ≤ max_words := List.length_take_le _ _
  omega

/-- C3 (amended): `enforce_output_length` is a total function, but the claimed
bound by the input's word count fails (see the counterexample): what holds is
that the output's word count is at most `max_words + 6`, the slack being the
whitespace-separated tokens of the appended truncation marker. -/
theorem enforce_output_length_word_budget (text : String) (max_words : Nat) :
    (pyWords (enforce_output_length text max_words)).length ≤ max_words + 6 := by
  rw [pyWords_length]
  simp only [enforce_output_length]
  split
  · split
    · rw [String.data_append, data_mk]
      refine le_trans (splitWS_append_le _ _ []) ?_
      refine le_trans (Nat.add_le_add (splitWS_take_le _ _ []) (le_refl _)) ?_
      have hp := truncated_words_le text max_words
      have hm5 : (splitWS (" [Response truncated due to length]").data []).length = 5 := rfl
      omega
    · rw [String.data_append]
      refine le_trans (splitWS_append_le _ _ []) ?_
      have hp := truncated_words_le text max_words
      have hm6 : (splitWS ("... [Response truncated due to length]").data []).length = 6 := rfl
      omega
  · next hlen =>
    rw [← pyWords_length]
    omega

/-- C3 counterexample: on the input text `"a b"` with `max_words = 1` the
output is `"a... [Response truncated due to length]"`, whose word count (6)
exceeds the input's word count (2), refuting the claim that the output's
word count never exceeds the input's. -/
theorem enforce_output_length_exceeds_input_words :
    ¬ ((pyWords (enforce_output_length "a b" 1)).length ≤ (pyWords "a b").length) := by
  decide

set_option maxRecDepth 40000 in
/-- C6: `is_cultural_topic` accepts
"What is the significance of traditional dance?" with no rejection message,
and rejects "What's the weather today?" with the fixed user-facing
explanation message. -/
theorem classify_topic_examples :
    is_cultural_topic "What is the significance of traditional dance?" = (true, none) ∧
    is_cultural_topic "What's the weather today?" = (false, some culture_error_msg) := by
  constructor <;> decide

/-- C8: `sanitize_input` is idempotent; its output contains none of the
denylisted characters and is truncated to at most 2000 code points. -/
theorem sanitize_idempotent_spec (x : String) :
    sanitize_input (sanitize_input x) = sanitize_input x ∧
    (sanitize_input x).data.length ≤ 2000 ∧
    ∀ c ∈ (sanitize_input x).data, ¬ c ∈ denyChars :=
  ⟨sanitize_idem x, sanitize_length x, sanitize_no_deny x⟩

/-- Concrete instantiation of the C8 theorem at the input "abc<def>{x}$y". -/
theorem sanitize_idempotent_spec_witness :
    sanitize_input (sanitize_input "abc<def>\x7bx\x7d$y") = sanitize_input "abc<def>\x7bx\x7d$y" :=
  (sanitize_idempotent_spec "abc<def>\x7bx\x7d$y").1

end Guardrails

namespace History

/-- A stored message (dataclass `Message` of `src/core/history.py`): role,
content and the append-time timestamp (machine time modelled as `Nat`). -/
structure Message where
  role : String
  content : String
  timestamp : Nat
  deriving DecidableEq, Repr

/-- The state of `HistoryStore`: the session registry (`self.sessions`, an
insertion-ordered association list standing for the Python dict), the
per-session capacity `max_size` and the retention window in seconds. -/
structure HistoryStore where
  sessions : List (String × List Message)
  max_size : Nat
  retention_seconds : Nat
  deriving DecidableEq, Repr

/-- Python dict membership `session_id in self.sessions`. -/
def hasSession (h : HistoryStore) (session_id : String) : Bool :=
  h.sessions.any (fun p => p.1 = session_id)

/-- One `deque(maxlen=N).append`: add the message on the right and evict from
the left whatever exceeds the capacity `N`. -/
def dequeAppend (N : Nat) (msgs : List Message) (m : Message) : List Message :=
  (msgs ++ [m]).drop (msgs.length + 1 - N)

/-- `HistoryStore.add_message`: create the session's deque lazily, then append
with eviction; `now` is the value of `time.time()` at the call. -/
def add_message (h : HistoryStore) (session_id role content : String) (now : Nat) :
    HistoryStore :=
  let sessions0 :=
    if hasSession h session_id then h.sessions else h.sessions ++ [(session_id, [])]
  { h with
    sessions := sessions0.map (fun p =>
      if p.1 = session_id then
        (p.1, dequeAppend h.max_size p.2 (Message.mk role content now))
      else p) }

/-- `HistoryStore.get_messages`: `[]` for an unknown session; otherwise the
whole stored list, sliced to the last `m` entries (`messages[-m:]`) only when
`max_messages` is truthy — Python treats both `None` and `0` as falsy and
skips the slice. -/
def get_messages (h : HistoryStore) (session_id : String) (max_messages : Option Nat) :
    List Message :=
  match h.sessions.find? (fun p => p.1 = session_id) with
  | none => []
  | some p =>
    match max_messages with
    | some m => if m ≠ 0 then p.2.drop (p.2.length - m) else p.2
    | none => p.2

/-- `HistoryStore.clear_history`: when the key is known, empty its deque
(`.clear()` — the key itself stays registered) and return `true`; otherwise
return `false`. -/
def clear_history (h : HistoryStore) (session_id : String) : HistoryStore × Bool :=
  if hasSession h session_id then
    ({ h with
       sessions := h.sessions.map (fun p =>
         if p.1 = session_id then (p.1, ([] : List Message)) else p) }, true)
  else (h, false)

/-- The expiry test inside `HistoryStore.cleanup_old_sessions`: a session is
expired exactly when it has messages (`if messages and ...`) and its newest
message is older than the retention window. -/
def isExpired (retention_seconds now : Nat) (msgs : List Message) : Bool :=
  match msgs.getLast? with
  | none => false
  | some m => decide (now - m.timestamp > retention_seconds)

/-- `HistoryStore.cleanup_old_sessions`: remove every expired session. -/
def cleanup_old_sessions (h : HistoryStore) (now : Nat) : HistoryStore :=
  { h with sessions := h.sessions.filter (fun p => ! isExpired h.retention_seconds now p.2) }

/-- The message list stored for a session (empty when unknown). -/
def sessionList (h : HistoryStore) (session_id : String) : List Message :=
  ((h.sessions.find? (fun p => p.1 = session_id)).map (fun p => p.2)).getD []

/-- Append a batch of (role, content, timestamp) triples in order, as repeated
`add_message` calls on one session. -/
def add_messages (h : HistoryStore) (session_id : String) :
    List (String × String × Nat) → HistoryStore
  | [] => h
  | (r, c, t) :: rest => add_messages (add_message h session_id r c t) session_id rest

end History

namespace History

theorem find?_map_update (sid : String) (f : List Message → List Message) :
    ∀ l : List (String × List Message),
      (l.map (fun p => if p.1 = sid then (p.1, f p.2) else p)).find? (fun p => p.1 = sid)
        = (l.find? (fun p => p.1 = sid)).map (fun p => (p.1, f p.2)) := by
  intro l
  induction l with
  | nil => simp
  | cons q l ih =>
    by_cases hq : q.1 = sid
    · simp [List.find?, hq]
    · simp [List.find?, hq, ih]

theorem find?_none (h : HistoryStore) (sid : String) (hk : hasSession h sid = false) :
    h.sessions.find? (fun p => p.1 = sid) = none := by
  rw [List.find?_eq_none]
  intro p hp hps
  have ht : hasSession h sid = true := by
    simp only [hasSession, List.any_eq_true]
    exact ⟨p, hp, by simpa using hps⟩
  rw [ht] at hk
  simp at hk

theorem add_message_max_size (h : HistoryStore) (sid r c : String) (t : Nat) :
    (add_message h sid r c t).max_size = h.max_size := rfl

theorem sessionList_add (h : HistoryStore) (sid role content : String) (now : Nat) :
    sessionList (add_message h sid role content now) sid
      = dequeAppend h.max_size (sessionList h sid) (Message.mk role content now) := by
  by_cases hk : hasSession h sid = true
  · simp only [add_message, hk, if_true, sessionList]
    rw [find?_map_update sid
      (fun v => dequeAppend h.max_size v (Message.mk role content now))]
    rcases hf : h.sessions.find? (fun p => p.1 = sid) with _ | p
    · exfalso
      rw [List.find?_eq_none] at hf
      simp only [hasSession, List.any_eq_true] at hk
      rcases hk with ⟨p, hp, hps⟩
      exact absurd (by simpa using hps) (by simpa using hf p hp)
    · simp [hf]
  · have hk' : hasSession h sid = false := by simpa using hk
    simp only [add_message, hk', Bool.false_eq_true, if_false, sessionList]
    rw [find?_map_update sid
      (fun v => dequeAppend h.max_size v (Message.mk role content now)),
      List.find?_append, find?_none h sid hk']
    simp [List.find?]

theorem sessionList_add_messages (sid : String) :
    ∀ (L : List (String × String × Nat)) (h : HistoryStore),
      sessionList (add_messages h sid L) sid
        = (L.map (fun r => Message.mk r.1 r.2.1 r.2.2)).foldl (dequeAppend h.max_size)
            (sessionList h sid) := by
  intro L
  induction L with
  | nil => intro h; rfl
  | cons x L ih =>
    intro h
    rcases x with ⟨r, c, t⟩
    show sessionList (add_messages (add_message h sid r c t) sid L) sid = _
    rw [ih (add_message h sid r c t), add_message_max_size, sessionList_add]
    rfl

theorem dequeAppend_foldl (N : Nat) :
    ∀ (L s : List Message), s.length ≤ N →
      L.foldl (dequeAppend N) s = (s ++ L).drop ((s ++ L).length - N) := by
  intro L
  induction L with
  | nil =>
    intro s hs
    have h0 : s.length - N = 0 := by omega
    simp [h0]
  | cons m L ih =>
    intro s hs
    rw [List.foldl_cons]
    have hlen : (dequeAppend N s m).length ≤ N := by
      simp only [dequeAppend, List.length_drop, List.length_append, List.length_cons,
        List.length_nil]
      omega
    rw [ih (dequeAppend N s m) hlen]
    have hd : dequeAppend N s m ++ L = ((s ++ [m]) ++ L).drop (s.length + 1 - N) := by
      rw [dequeAppend]
      exact (List.drop_append_of_le_length (by simp)).symm
    have hsm : s ++ m :: L = (s ++ [m]) ++ L := by simp
    rw [hd, List.drop_drop, hsm]
    congr 1
    rw [List.length_drop]
    have hX : ((s ++ [m]) ++ L).length = s.length + 1 + L.length := by
      simp only [List.length_append, List.length_cons, List.length_nil]
    omega

theorem get_none_eq (h : HistoryStore) (sid : String) :
    get_messages h sid none = sessionList h sid := by
  rcases hf : h.sessions.find? (fun p => p.1 = sid) with _ | p <;>
    simp [get_messages, sessionList, hf]

/-- C5: starting from a store that does not know the session, after
`max_size + k` appends to it the stored count is `min (max_size + k) max_size`
and the retained messages are exactly the last `max_size` appended messages,
in append order. -/
theorem history_capacity_fifo (h : HistoryStore) (sid : String) (k : Nat)
    (L : List (String × String × Nat))
    (hfresh : hasSession h sid = false)
    (hlen : L.length = h.max_size + k) :
    (get_messages (add_messages h sid L) sid none).length
        = min (h.max_size + k) h.max_size ∧
    get_messages (add_messages h sid L) sid none
        = (L.map (fun r => Message.mk r.1 r.2.1 r.2.2)).drop k := by
  have hempty : sessionList h sid = [] := by
    rw [sessionList, find?_none h sid hfresh]
    rfl
  have hmain : sessionList (add_messages h sid L) sid
      = (L.map (fun r => Message.mk r.1 r.2.1 r.2.2)).drop k := by
    rw [sessionList_add_messages, hempty,
      dequeAppend_foldl h.max_size _ [] (by simp)]
    simp only [List.nil_append, List.length_map, hlen]
    congr 1
    omega
  have hget := get_none_eq (add_messages h sid L) sid
  refine ⟨?_, by rw [hget, hmain]⟩
  rw [hget, hmain, List.length_drop, List.length_map, hlen]
  omega

theorem history_capacity_fifo_witness :
    get_messages (add_messages (HistoryStore.mk [] 2 86400) "s"
        [("user", "a", 0), ("assistant", "b", 1), ("user", "c", 2)]) "s" none
      = [Message.mk "assistant" "b" 1, Message.mk "user" "c" 2] :=
  (history_capacity_fifo (HistoryStore.mk [] 2 86400) "s" 1
    [("user", "a", 0), ("assistant", "b", 1), ("user", "c", 2)] rfl rfl).2

end History

namespace History

/-- C9: clearing a session that has been appended to (hence is registered)
empties its messages but never unregisters it: the clear returns `true`, a
second clear still returns `true`, a read returns the empty sequence, and no
cleanup at any later time removes the emptied session, because the expiry
predicate skips sessions with no messages. -/
theorem clear_keeps_session_registered (h : HistoryStore) (sid : String)
    (hknown : hasSession h sid = true) :
    (clear_history h sid).2 = true ∧
    (clear_history (clear_history h sid).1 sid).2 = true ∧
    get_messages (clear_history h sid).1 sid none = [] ∧
    ∀ now : Nat, hasSession (cleanup_old_sessions (clear_history h sid).1 now) sid = true := by
  have hclr : (clear_history h sid).1.sessions
      = h.sessions.map (fun p => if p.1 = sid then (p.1, ([] : List Message)) else p) := by
    simp [clear_history, hknown]
  have hmem : ∃ p ∈ h.sessions, p.1 = sid := by
    simpa [hasSession, List.any_eq_true] using hknown
  have hmem' : (sid, ([] : List Message)) ∈ (clear_history h sid).1.sessions := by
    rw [hclr]
    rcases hmem with ⟨p, hp, hp1⟩
    refine List.mem_map.mpr ⟨p, hp, ?_⟩
    simp [hp1]
  have hknown' : hasSession (clear_history h sid).1 sid = true := by
    simp only [hasSession, List.any_eq_true]
    exact ⟨(sid, []), hmem', by simp⟩
  refine ⟨by simp [clear_history, hknown], ?_, ?_, ?_⟩
  · revert hknown'
    generalize (clear_history h sid).1 = h'
    intro hknown'
    simp [clear_history, hknown']
  · have hfind : (clear_history h sid).1.sessions.find? (fun p => p.1 = sid)
        = some (sid, ([] : List Message)) := by
      rw [hclr, find?_map_update sid (fun _ => ([] : List Message))]
      rcases hf : h.sessions.find? (fun p => p.1 = sid) with _ | p
      · exfalso
        rw [List.find?_eq_none] at hf
        rcases hmem with ⟨q, hq, hq1⟩
        exact absurd (by simpa using hq1) (by simpa using hf q hq)
      · have hp1 : p.1 = sid := by simpa using List.find?_some hf
        rw [hf]
        rcases p with ⟨p1, p2⟩
        simp only at hp1
        subst hp1
        rfl
    simp [get_messages, hfind]
  · intro now
    have hkeep : (sid, ([] : List Message))
        ∈ (cleanup_old_sessions (clear_history h sid).1 now).sessions := by
      simp only [cleanup_old_sessions, List.mem_filter]
      exact ⟨hmem', by simp [isExpired]⟩
    simp only [hasSession, List.any_eq_true]
    exact ⟨(sid, []), hkeep, by simp⟩

/-- Instantiation of the C9 theorem on a one-session store, including survival
of a cleanup far in the future. -/
theorem clear_keeps_session_registered_witness :
    (clear_history (HistoryStore.mk [("s", [Message.mk "user" "hi" 5])] 6 86400) "s").2 = true ∧
    hasSession
      (cleanup_old_sessions
        (clear_history (HistoryStore.mk [("s", [Message.mk "user" "hi" 5])] 6 86400) "s").1
        1000000000) "s" = true :=
  ⟨(clear_keeps_session_registered
      (HistoryStore.mk [("s", [Message.mk "user" "hi" 5])] 6 86400) "s" rfl).1,
   (clear_keeps_session_registered
      (HistoryStore.mk [("s", [Message.mk "user" "hi" 5])] 6 86400) "s" rfl).2.2.2 1000000000⟩

/-- C10: for a known session, `get_messages` with `max_messages = 0` returns
the full stored sequence — identical to omitting the limit — and any positive
limit returns the `min(limit, count)` most recent messages as a suffix of the
stored sequence, preserving chronological order. -/
theorem get_messages_limit_semantics (h : HistoryStore) (sid : String)
    (msgs : List Message)
    (hfind : h.sessions.find? (fun p => p.1 = sid) = some (sid, msgs)) :
    get_messages h sid (some 0) = get_messages h sid none ∧
    get_messages h sid none = msgs ∧
    ∀ limit : Nat, 0 < limit →
      (get_messages h sid (some limit)).length = min limit msgs.length ∧
      get_messages h sid (some limit) <:+ msgs := by
  refine ⟨by simp [get_messages, hfind], by simp [get_messages, hfind], ?_⟩
  intro limit hl
  have hne : limit ≠ 0 := by omega
  constructor
  · simp only [get_messages, hfind, hne, ne_eq, not_false_eq_true, if_true, List.length_drop]
    omega
  · simp only [get_messages, hfind, hne, ne_eq, not_false_eq_true, if_true]
    exact List.drop_suffix _ _

/-- Instantiation of the C10 theorem on a two-message session. -/
theorem get_messages_limit_semantics_witness :
    get_messages (HistoryStore.mk [("s", [Message.mk "user" "a" 0, Message.mk "assistant" "b" 1])]
        6 86400) "s" (some 0)
      = get_messages (HistoryStore.mk
          [("s", [Message.mk "user" "a" 0, Message.mk "assistant" "b" 1])] 6 86400) "s" none ∧
    (get_messages (HistoryStore.mk
        [("s", [Message.mk "user" "a" 0, Message.mk "assistant" "b" 1])] 6 86400) "s"
        (some 1)).length = 1 :=
  ⟨(get_messages_limit_semantics
      (HistoryStore.mk [("s", [Message.mk "user" "a" 0, Message.mk "assistant" "b" 1])] 6 86400)
      "s" [Message.mk "user" "a" 0, Message.mk "assistant" "b" 1] rfl).1,
   ((get_messages_limit_semantics
      (HistoryStore.mk [("s", [Message.mk "user" "a" 0, Message.mk "assistant" "b" 1])] 6 86400)
      "s" [Message.mk "user" "a" 0, Message.mk "assistant" "b" 1] rfl).2.2 1 (by omega)).1⟩

end History

namespace Prompts

/-- The five keys of the prompt dict built in `PromptBuilder.load_prompts`,
in their insertion order; `update_prompt`'s membership test `key in
self.prompts` is membership in exactly this set, since no operation ever adds
or removes a dict key. -/
def sectionKeys : List String := ["role", "task", "constraints", "style", "output_format"]

/-- The prompt-template state `self.prompts`: the five named sections. -/
structure PromptState where
  role : String
  task : String
  constraints : String
  style : String
  output_format : String
  deriving DecidableEq, Repr

/-- The built-in default sections of `PromptBuilder.load_prompts` (the state
when no override files exist). -/
def defaultPrompts : PromptState :=
  { role := "You are a friendly, precise cultural assistant for quick, factual guidance",
    task := "Answer cultural questions clearly and briefly. Prioritize accuracy, define terms, and add one actionable tip when helpful",
    constraints := "Do not fabricate references. If unsure, say so briefly. Avoid policy, medical, or legal advice. Keep answers under 200 words when possible",
    style := "Tone: warm, concise, non-patronizing. Use simple sentences and neutral vocabulary.",
    output_format := "Answer using this structure:\n1) Direct answer (2-4 sentences)\n2) Optional bullets (max 3)\n3) One follow-up question on user intent" }

/-- Dict lookup `self.prompts[key]` (`none` for an unrecognized key). -/
def getSection (p : PromptState) (key : String) : Option String :=
  if key = "role" then some p.role
  else if key = "task" then some p.task
  else if key = "constraints" then some p.constraints
  else if key = "style" then some p.style
  else if key = "output_format" then some p.output_format
  else none

/-- Dict update `self.prompts[key] = content` for a recognized key. -/
def setSection (p : PromptState) (key content : String) : PromptState :=
  if key = "role" then { p with role := content }
  else if key = "task" then { p with task := content }
  else if key = "constraints" then { p with constraints := content }
  else if key = "style" then { p with style := content }
  else if key = "output_format" then { p with output_format := content }
  else p

/-- Reading the on-disk override store (`prompts/<key>.txt` files, most
recent write first). -/
def fsRead (fs : List (String × String)) (key : String) : Option String :=
  (fs.find? (fun e => e.1 = key)).map (fun e => e.2)

/-- `PromptBuilder.update_prompt`: when `key` is one of the five dict keys,
replace that section and write the override file; otherwise fall through —
the method has no else branch, raises nothing, and no `UnknownSectionError`
class exists anywhere in the repository. -/
def update_prompt (p : PromptState) (fs : List (String × String)) (key content : String) :
    PromptState × List (String × String) :=
  if key ∈ sectionKeys then (setSection p key content, (key, content) :: fs)
  else (p, fs)

/-- `PromptBuilder.build_system_prompt`: the five sections concatenated in
fixed labeled order, then a "Conversation memory" bullet block when `memory`
is a non-empty list (Python truthiness of `if memory:`), then a locale note
when `locale` is not the default `"en-US"`. -/
def build_system_prompt (p : PromptState) (memory : List String) (locale : String) : String :=
  let base := p.role ++ "\n\nTask:\n" ++ p.task ++ "\n\nConstraints:\n" ++ p.constraints ++
    "\n\nStyle:\n" ++ p.style ++ "\n\nOutput format:\n" ++ p.output_format
  let withMem :=
    if memory ≠ [] then
      base ++ "\n\n" ++ ("Conversation memory:\n-" ++ Guardrails.pyJoin "\n-" memory)
    else base
  if locale ≠ "en-US" then
    withMem ++ "\n\nNote: Respond in a culturally appropriate way for " ++ locale ++ "."
  else withMem

theorem str_append_assoc (a b c : String) : (a ++ b) ++ c = a ++ (b ++ c) := by
  apply String.ext
  simp [String.data_append]

/-- C4 (amended): `update_prompt` with one of the five recognized keys
replaces that section's content for the rest of the process lifetime and
persists it to the override store; with any other key it silently does
nothing and returns with the template and the store unchanged (it does not
fail). -/
theorem update_prompt_behavior (p : PromptState) (fs : List (String × String))
    (key content : String) :
    (key ∈ sectionKeys →
      getSection (update_prompt p fs key content).1 key = some content ∧
      fsRead (update_prompt p fs key content).2 key = some content) ∧
    (key ∉ sectionKeys → update_prompt p fs key content = (p, fs)) := by
  constructor
  · intro hk
    have hk' : key = "role" ∨ key = "task" ∨ key = "constraints" ∨ key = "style" ∨
        key = "output_format" := by simpa [sectionKeys] using hk
    rcases hk' with rfl | rfl | rfl | rfl | rfl <;> exact ⟨rfl, rfl⟩
  · intro hk
    simp only [update_prompt, if_neg hk]

/-- Instantiation of the C4 theorem: updating the recognized key "style" and
the unrecognized key "banana". -/
theorem update_prompt_behavior_witness :
    getSection (update_prompt defaultPrompts [] "style" "terse").1 "style" = some "terse" ∧
    update_prompt defaultPrompts [] "banana" "terse" = (defaultPrompts, []) :=
  ⟨((update_prompt_behavior defaultPrompts [] "style" "terse").1 (by decide)).1,
   (update_prompt_behavior defaultPrompts [] "banana" "terse").2 (by decide)⟩

/-- C4 counterexample: `update_prompt` called with the unrecognized key
"banana" returns normally with the template state and override store
unchanged — nothing is raised.  The claimed `UnknownSectionError` does not
exist in the code (`PromptBuilder.update_prompt` has no else branch and no
raise), so the failure the claim requires cannot occur. -/
theorem update_prompt_unknown_key_no_error :
    update_prompt defaultPrompts [] "banana" "x" = (defaultPrompts, []) := rfl

set_option maxRecDepth 200000 in
/-- C7: with an empty memory and the default locale the built prompt contains
neither a "Conversation memory" block nor a locale note; with memory `["x"]`
and locale `"fr-FR"` it contains both; and for every template state, memory
and locale the output starts with the five sections concatenated in the fixed
order role, task, constraints, style, output_format (the function is a pure
function of these inputs, hence deterministic). -/
theorem build_system_prompt_memory_locale :
    Guardrails.strContains (build_system_prompt defaultPrompts [] "en-US")
        "Conversation memory" = false ∧
    Guardrails.strContains (build_system_prompt defaultPrompts [] "en-US")
        "Note: Respond in a culturally appropriate way for" = false ∧
    Guardrails.strContains (build_system_prompt defaultPrompts ["x"] "fr-FR")
        "Conversation memory" = true ∧
    Guardrails.strContains (build_system_prompt defaultPrompts ["x"] "fr-FR")
        "Note: Respond in a culturally appropriate way for fr-FR." = true ∧
    ∀ (p : PromptState) (memory : List String) (locale : String), ∃ tail : String,
      build_system_prompt p memory locale
        = p.role ++ "\n\nTask:\n" ++ p.task ++ "\n\nConstraints:\n" ++ p.constraints ++
          "\n\nStyle:\n" ++ p.style ++ "\n\nOutput format:\n" ++ p.output_format ++ tail := by
  refine ⟨by decide, by decide, by decide, by decide, ?_⟩
  intro p memory locale
  refine ⟨(if memory ≠ [] then
      "\n\n" ++ ("Conversation memory:\n-" ++ Guardrails.pyJoin "\n-" memory) else "") ++
    (if locale ≠ "en-US" then
      "\n\nNote: Respond in a culturally appropriate way for " ++ locale ++ "." else ""), ?_⟩
  apply String.ext
  by_cases hm : memory = [] <;> by_cases hl : locale = "en-US" <;>
    simp [build_system_prompt, hm, hl, String.data_append]

end Prompts

namespace LLMClient

/-- The outcome of one HTTP transport attempt (`requests.post`): a timeout, a
connection-level failure, or a received HTTP response with a status code and
a body. -/
inductive TransportResult where
  | timeout
  | connError (msg : String)
  | response (status : Nat) (body : String)
  deriving DecidableEq, Repr

/-- The exception kinds relevant to one attempt of `chat_completion`: the
project's `LLMClientError`, and a raw `requests` `RequestException` (the only
kind tenacity's predicate would retry). -/
inductive PyExc where
  | llmClientError (msg : String)
  | requestException (msg : String)
  deriving DecidableEq, Repr

/-- tenacity's retry predicate
`retry_if_exception_type(requests.exceptions.RequestException)`:
`LLMClientError` subclasses `Exception`, not `RequestException`. -/
def isRequestException : PyExc → Bool
  | .requestException _ => true
  | .llmClientError _ => false

/-- One run of `chat_completion`'s body, as a function of the transport
outcome of its single `requests.post` call: a received non-200 response
raises `LLMClientError` (line 63); a timeout is caught and re-raised as
`LLMClientError` (line 69); any other `RequestException` is caught and
re-raised as `LLMClientError` (line 72); a 200 response returns the body. -/
def attemptOnce : TransportResult → Except PyExc String
  | .response status body =>
    if status ≠ 200 then
      .error (.llmClientError ("LLM API error " ++ toString status ++ ": " ++ body))
    else .ok body
  | .timeout => .error (.llmClientError "Request to LLM API timed out")
  | .connError msg => .error (.llmClientError ("Request to LLM API failed: " ++ msg))

/-- The loop of tenacity's `@retry(stop=stop_after_attempt(n),
retry=retry_if_exception_type(RequestException), reraise=True)`: run the
attempt; on success stop; on an exception retry only when the predicate
accepts it and attempts remain, otherwise re-raise that (last) exception.
`f` maps the 1-based attempt index to its outcome; the result is paired with
the index of the last attempt made, i.e. the total number of attempts. -/
def tenacityRun (f : Nat → Except PyExc String) : Nat → Nat → Except PyExc String × Nat
  | 0, idx => (f idx, idx)
  | remaining + 1, idx =>
    match f idx with
    | .ok r => (.ok r, idx)
    | .error e =>
      if isRequestException e = true ∧ 0 < remaining then tenacityRun f remaining (idx + 1)
      else (.error e, idx)

/-- `LLMClient.chat_completion` against a transport oracle mapping the attempt
number (1-based) to that attempt's transport outcome: the tenacity-wrapped
body, bounded to 3 attempts. -/
def chat_completion (transport : Nat → TransportResult) : Except PyExc String × Nat :=
  tenacityRun (fun i => attemptOnce (transport i)) 3 1

/-- The C1 simulated transport: connection errors on attempts 1 and 2, then
an HTTP 200 response on attempt 3. -/
def failTwiceTransport : Nat → TransportResult := fun i =>
  if i ≤ 2 then TransportResult.connError "boom" else TransportResult.response 200 "ok"

/-- C1 (code bug): with a transport that fails retryably twice and would
succeed on the third attempt, `chat_completion` makes exactly ONE attempt and
surfaces `LLMClientError` instead of retrying: the `except` clauses in the
body re-wrap every `requests.RequestException` as `LLMClientError` before the
`@retry` decorator sees it, so its predicate
`retry_if_exception_type(RequestException)` never matches and the configured
3-attempt retry (the decorator's and the claim's intent) is dead code. -/
theorem chat_completion_transport_error_not_retried :
    chat_completion failTwiceTransport
      = (.error (.llmClientError "Request to LLM API failed: boom"), 1) := rfl

/-- C2: a received HTTP response with a non-200 status on the first attempt
is classified fatal: exactly one attempt is made and the `LLMClientError`
carrying the status is raised immediately, with no retry. -/
theorem http_error_fatal_no_retry (transport : Nat → TransportResult)
    (status : Nat) (body : String)
    (hstatus : status ≠ 200) (h1 : transport 1 = TransportResult.response status body) :
    chat_completion transport
      = (.error (.llmClientError ("LLM API error " ++ toString status ++ ": " ++ body)), 1) := by
  have h3 : (3 : Nat) = 2 + 1 := rfl
  rw [chat_completion, h3, tenacityRun]
  simp only [h1, attemptOnce, if_pos hstatus, isRequestException]
  simp

/-- Instantiation of the C2 theorem: HTTP 500 with body "oops" on attempt 1
gives one attempt and the wrapped error. -/
theorem http_error_fatal_no_retry_witness :
    chat_completion (fun _ => TransportResult.response 500 "oops")
      = (.error (.llmClientError "LLM API error 500: oops"), 1) :=
  http_error_fatal_no_retry (fun _ => TransportResult.response 500 "oops") 500 "oops"
    (by decide) rfl

end LLMClient
